import Mathlib

set_option maxRecDepth 20000

namespace MskyInfo

/-! Shallow embedding of `src/script.js` (msky-info): a browser tool that
fetches `/api/meta` from a host (POST with a 5-second timeout signal, GET
fallback on failure) and renders the metadata, or an offline block, as HTML. -/

/-- A JavaScript value as it can appear in a field of the loosely-typed
metadata object (`undefined` for a missing property). -/
inductive JVal where
  | jundefined
  | jnull
  | jbool (b : Bool)
  | jnum (n : Int)
  | jstr (s : String)
  | jarr (elems : List JVal)

/-- JavaScript truthiness of a `JVal` (objects/arrays are always truthy). -/
def truthy : JVal → Bool
  | .jundefined => false
  | .jnull => false
  | .jbool b => b
  | .jnum n => n != 0
  | .jstr s => s != ""
  | .jarr _ => true

/-- JavaScript `a || b`. -/
def jor (a b : JVal) : JVal := if truthy a then a else b

mutual

/-- JavaScript `String(v)` conversion. -/
def jsString : JVal → String
  | .jundefined => "undefined"
  | .jnull => "null"
  | .jbool b => if b then "true" else "false"
  | .jnum n => toString n
  | .jstr s => s
  | .jarr l => jsStringArr l

/-- JavaScript array-to-string: elements joined by commas. -/
def jsStringArr : List JVal → String
  | [] => ""
  | [x] => jsString x
  | x :: y :: t => jsString x ++ "," ++ jsStringArr (y :: t)

end

/-- One character under `escapeHTML`'s regex replacement
`/[&<>'\x27"]/g`: the five special characters become entities, every
other character is kept (source: `script.js` lines 8-16). -/
def escChar (c : Char) : List Char :=
  if c = '&' then "&amp;".data
  else if c = '<' then "&lt;".data
  else if c = '>' then "&gt;".data
  else if c = '"' then "&quot;".data
  else if c = '\'' then "&#39;".data
  else [c]

/-- Character-list version of `escapeHTML`. -/
def escList : List Char → List Char
  | [] => []
  | c :: t => escChar c ++ escList t

/-- `escapeHTML(str)` from `script.js`: replace every `&`, `<`, `>`, `"`,
`'` by its HTML entity.  (The JS `String(str || "")` coercion is applied
at the call sites, see `escJ`.) -/
def escapeHTML (s : String) : String := ⟨escList s.data⟩

/-- `escapeHTML` applied to a `JVal` argument: JS computes
`String(str || "")`, which maps every falsy value to `""`. -/
def escJ (v : JVal) : String := escapeHTML (if truthy v then jsString v else "")

/-- `escapeHTML(v || 'N/A')`: the rendering idiom for defaultable fields. -/
def escOrNA (v : JVal) : String := escJ (jor v (.jstr "N/A"))

/-- The metadata object parsed from the `/api/meta` JSON body; every
property the renderer reads, each possibly `undefined`. -/
structure Meta where
  softwareName : JVal := .jundefined
  name : JVal := .jundefined
  version : JVal := .jundefined
  description : JVal := .jundefined
  maintainerName : JVal := .jundefined
  maintainerEmail : JVal := .jundefined
  inquiryUrl : JVal := .jundefined
  repositoryUrl : JVal := .jundefined
  iconUrl : JVal := .jundefined
  bannerUrl : JVal := .jundefined
  tosUrl : JVal := .jundefined
  privacyPolicyUrl : JVal := .jundefined
  maxNoteTextLength : JVal := .jundefined
  serverRules : JVal := .jundefined

/-- Outcome of one `fetch` call: either the promise rejects (transport
failure or abort; `name`/`msg` are the JS error's `name` and `message`),
or a response arrives with a `status`, whose `.json()` either parses to a
`Meta` or rejects with a parse-error message. -/
inductive FetchOutcome where
  | thrown (name msg : String)
  | resp (status : Nat) (body : Except String Meta)

/-- `Response.ok`: status in the 2xx range. -/
def respOk (status : Nat) : Bool := 200 ≤ status && status ≤ 299

/-- The network environment for one host: what the POST to
`/api/meta` and the GET to `/api/meta` would each produce. -/
structure World where
  post : FetchOutcome
  get : FetchOutcome

/-- HTTP method of an issued request. -/
inductive Method where
  | POST
  | GET
deriving DecidableEq

/-- Observable effects of a `getMeta` run: the timeout values of the abort
signals created (in creation order; a request's signal is its index), the
requests issued in order with the signal passed to each, and the console
error log. -/
structure Trace where
  signals : List Nat
  requests : List (Method × Nat)
  logs : List String
deriving DecidableEq

/-- The console message of `getMeta`'s catch block (lines 44-51):
`AbortError` logs a timeout message, anything else logs the error text. -/
def postLogMsg (host nm msg : String) : String :=
  if nm == "AbortError" then "POST attempt timed out for " ++ host
  else "POST attempt failed for " ++ host ++ ": " ++ msg

/-- The message of the error thrown on a non-2xx, non-404/405 POST. -/
def postFailedMsg (status : Nat) : String :=
  "POST failed (" ++ toString status ++ ")"

/-- The message of the error thrown on a non-2xx GET (line 60). -/
def getFailedMsg (status : Nat) : String :=
  "GET failed (" ++ toString status ++ ")"

/-- The GET attempt of `getMeta` (lines 54-62), run with the signal
created at the start (index 0): a rejection or a non-2xx status is the
final error; on 2xx the parse outcome of `respGet.json()` is returned. -/
def tryGet (w : World) (sigs : List Nat) (reqs : List (Method × Nat))
    (logs : List String) : Except String Meta × Trace :=
  let reqs := reqs ++ [(Method.GET, 0)]
  match w.get with
  | .thrown _ msg => (.error msg, ⟨sigs, reqs, logs⟩)
  | .resp status body =>
    if respOk status then (body, ⟨sigs, reqs, logs⟩)
    else (.error (getFailedMsg status), ⟨sigs, reqs, logs⟩)

/-- `getMeta(host)` (lines 23-63).  One abort signal with a 5000 ms
timeout is created before the POST and shared with the GET.  On a 2xx
POST the result is `respPost.json()` returned from inside the `try`
without `await`, so a parse rejection is NOT caught and the GET is not
attempted.  A non-2xx POST status or a POST rejection falls through to
the single GET attempt (logging unless the status was 404/405, which
skip the throw). -/
def getMeta (host : String) (w : World) : Except String Meta × Trace :=
  let sigs := [5000]
  let reqs := [(Method.POST, 0)]
  match w.post with
  | .thrown nm msg => tryGet w sigs reqs [postLogMsg host nm msg]
  | .resp status body =>
    if respOk status then (body, ⟨sigs, reqs, []⟩)
    else if status != 405 && status != 404 then
      tryGet w sigs reqs [postLogMsg host "Error" (postFailedMsg status)]
    else
      tryGet w sigs reqs []

/-- The `health` object built on success (lines 80-89). -/
structure Health where
  host : String
  reachable : Bool
  softwareName : JVal
  version : JVal
  description : JVal
  adminName : JVal
  adminEmail : JVal
  contactLink : JVal

/-- Construction of `health` from the fetched metadata. -/
def healthOf (host : String) (m : Meta) : Health where
  host := host
  reachable := true
  softwareName := jor m.softwareName (jor m.name .jnull)
  version := jor m.version .jnull
  description := jor m.description .jnull
  adminName := jor m.maintainerName .jnull
  adminEmail := jor m.maintainerEmail .jnull
  contactLink := jor m.inquiryUrl (jor m.repositoryUrl .jnull)

/-- `descHtml` (lines 92-94). -/
def descHtml (h : Health) : String :=
  if truthy h.description then
    "<p><strong>Description:</strong></p><p class=\"description\">" ++
      escJ h.description ++ "</p>"
  else "<p><strong>Description:</strong> N/A</p>"

/-- `contactLinkHtml` (lines 96-98). -/
def contactLinkHtml (h : Health) : String :=
  if truthy h.contactLink then
    "<a href=\"" ++ escJ h.contactLink ++ "\" target=\"_blank\" rel=\"noopener\">" ++
      escJ h.contactLink ++ "</a>"
  else "N/A"

/-- `metaIcon` (line 102). -/
def metaIcon (m : Meta) : String :=
  if truthy m.iconUrl then
    "<p><strong>Icon:</strong> <a href=\"" ++ escJ m.iconUrl ++
      "\" target=\"_blank\" rel=\"noopener\">" ++ escJ m.iconUrl ++ "</a></p>"
  else ""

/-- `metaBanner` (line 103). -/
def metaBanner (m : Meta) : String :=
  if truthy m.bannerUrl then
    "<p><strong>Banner:</strong> <a href=\"" ++ escJ m.bannerUrl ++
      "\" target=\"_blank\" rel=\"noopener\">" ++ escJ m.bannerUrl ++ "</a></p>"
  else ""

/-- `metaTos` (line 104). -/
def metaTos (m : Meta) : String :=
  if truthy m.tosUrl then
    "<p><strong>Terms of Service:</strong> <a href=\"" ++ escJ m.tosUrl ++
      "\" target=\"_blank\" rel=\"noopener\">" ++ escJ m.tosUrl ++ "</a></p>"
  else ""

/-- `metaPrivacy` (line 105). -/
def metaPrivacy (m : Meta) : String :=
  if truthy m.privacyPolicyUrl then
    "<p><strong>Privacy Policy:</strong> <a href=\"" ++ escJ m.privacyPolicyUrl ++
      "\" target=\"_blank\" rel=\"noopener\">" ++ escJ m.privacyPolicyUrl ++ "</a></p>"
  else ""

/-- `metaMaxLength` (line 106). -/
def metaMaxLength (m : Meta) : String :=
  if truthy m.maxNoteTextLength then
    "<p><strong>Max Note Length:</strong> " ++ escJ m.maxNoteTextLength ++ "</p>"
  else ""

/-- `metaRulesHtml` (lines 109-116): a header plus one `<li>` per rule,
only when `serverRules` is truthy, an array, and non-empty. -/
def metaRulesHtml (m : Meta) : String :=
  if truthy m.serverRules then
    match m.serverRules with
    | .jarr rules =>
      if rules.length > 0 then
        (rules.foldl (fun acc rule => acc ++ ("<li>" ++ escJ rule ++ "</li>"))
          "<p><strong>Server Rules:</strong></p><ul class=\"rules\">") ++ "</ul>"
      else ""
    | _ => ""
  else ""

/-- The success template assigned to `resultDiv.innerHTML` (lines 119-137),
with the template literal's exact text between the interpolations. -/
def renderOnline (host : String) (m : Meta) : String :=
  let h := healthOf host m
  "\n      <p><strong>Host:</strong> " ++ escapeHTML h.host ++
  "</p>\n      <p><strong>Status:</strong> <span style=\"color:#7ee787;\">Online</span></p>\n      " ++
  descHtml h ++
  "\n      <p><strong>Version:</strong> " ++ escOrNA h.version ++
  "</p>\n      <p><strong>Admin:</strong> " ++ escOrNA h.adminName ++
  "</p>\n      <p><strong>Email:</strong> " ++ escOrNA h.adminEmail ++
  "</p>\n      <p><strong>Contact:</strong> " ++ contactLinkHtml h ++
  "</p>\n      \n      <hr>\n      \n      <p style=\"font-weight:bold; opacity: 0.8;\">--- Server Details (from /api/meta) ---</p>\n      " ++
  metaMaxLength m ++ "\n      " ++
  metaIcon m ++ "\n      " ++
  metaBanner m ++ "\n      " ++
  metaTos m ++ "\n      " ++
  metaPrivacy m ++ "\n      " ++
  metaRulesHtml m ++ "\n    "

/-- The failure template assigned to `resultDiv.innerHTML` (lines 150-154). -/
def renderOffline (host errMsg : String) : String :=
  "\n      <p><strong>Host:</strong> " ++ escapeHTML host ++
  "</p>\n      <p><strong>Status:</strong> <span style=\"color:#f88;\">Offline</span></p>\n      <p><strong>Error:</strong> " ++
  escapeHTML errMsg ++ "</p>\n    "

/-- JavaScript `String.prototype.trim`: strip leading and trailing
whitespace. -/
def jsTrim (s : String) : String :=
  ⟨((s.data.dropWhile Char.isWhitespace).reverse.dropWhile
      Char.isWhitespace).reverse⟩

/-- `doSearch` (lines 69-156), as a function of the input field's value,
the network world and the current content of the output region.  An empty
trimmed host returns before any request or any write to the output; a
successful `getMeta` renders the online block, a failed one the offline
block.  The returned trace is the network/log activity of the run. -/
def doSearch (input : String) (w : World) (output : String) : String × Trace :=
  let host := jsTrim input
  if host == "" then (output, ⟨[], [], []⟩)
  else
    match getMeta host w with
    | (.ok meta, tr) => (renderOnline host meta, tr)
    | (.error msg, tr) => (renderOffline host msg, tr)

/-! ### String-containment helpers -/

/-- Boolean test: `n` is a prefix of `h` (character lists). -/
def isPreB : List Char → List Char → Bool
  | [], _ => true
  | _ :: _, [] => false
  | a :: as, b :: bs => a == b && isPreB as bs

/-- Boolean test: `n` occurs as a contiguous sublist of `h`. -/
def isSubB (n : List Char) : List Char → Bool
  | [] => n.isEmpty
  | c :: t => isPreB n (c :: t) || isSubB n t

/-- Boolean substring test on strings. -/
def strHas (n h : String) : Bool := isSubB n.data h.data

/-- `n` occurs as a substring of `h`. -/
def StrIn (n h : String) : Prop := ∃ pre post, h = pre ++ n ++ post

/-! ### Predicates on fetch outcomes, and concrete worlds used as witnesses -/

/-- The POST attempt fails: its promise rejects, or its status is not 2xx. -/
def postFailed : FetchOutcome → Bool
  | .thrown _ _ => true
  | .resp s _ => !respOk s

/-- The message with which the GET attempt fails (`none` when the GET
response has a 2xx status or the GET is a rejection-free success). -/
def getFailMsg : FetchOutcome → Option String
  | .thrown _ msg => some msg
  | .resp s _ => if respOk s then none else some (getFailedMsg s)

/-- A world whose POST succeeds with status 200 and an empty metadata
object, while a GET would return 500. -/
def wPostOk : World := ⟨.resp 200 (.ok {}), .resp 500 (.error "unused")⟩

/-- A world whose POST rejects with a transport error and whose GET
succeeds. -/
def wPostThrown : World :=
  ⟨.thrown "TypeError" "Failed to fetch", .resp 200 (.ok {})⟩

/-- A world whose POST times out (AbortError) and whose GET succeeds. -/
def wPostAbort : World :=
  ⟨.thrown "AbortError" "signal timed out", .resp 200 (.ok {})⟩

/-- A world where both attempts fail: POST returns 503, GET rejects. -/
def wBothFail : World :=
  ⟨.resp 503 (.error "unused"), .thrown "TypeError" "Failed to fetch"⟩

/-- A world whose POST returns 2xx but with a body that is not JSON, and
whose GET would succeed. -/
def wBadJson : World :=
  ⟨.resp 200 (.error "Unexpected token < in JSON"), .resp 200 (.ok {})⟩

/-- The console log a run of `getMeta` leaves for each POST outcome: a
rejection is logged through the catch block, a non-2xx status other than
404/405 is logged as the thrown `POST failed (...)` error, and a 2xx or a
404/405 status logs nothing. -/
def postLogsOf (host : String) : FetchOutcome → List String
  | .thrown nm msg => [postLogMsg host nm msg]
  | .resp s _ =>
    if respOk s then []
    else if s != 405 && s != 404 then
      [postLogMsg host "Error" (postFailedMsg s)]
    else []

/-- One rendered rules entry per array element, in order (the form the
spec describes for the rules list). -/
def liConcat : List JVal → String
  | [] => ""
  | r :: t => ("<li>" ++ escJ r ++ "</li>") ++ liConcat t

/-- Modelled from the spec's words for the rules list: when `serverRules`
is a non-empty array, a header plus one escaped entry per element in the
array's original order; otherwise (absent, not an array, or empty)
nothing.  Compared against the source's `metaRulesHtml`. -/
def rulesSpecOf (m : Meta) : String :=
  match m.serverRules with
  | .jarr (r :: rs) =>
    "<p><strong>Server Rules:</strong></p><ul class=\"rules\">" ++
      liConcat (r :: rs) ++ "</ul>"
  | _ => ""

/-- The metadata of C5: a software name and a version, nothing else. -/
def mFooVersion : Meta := { softwareName := .jstr "Foo", version := .jstr "1.0" }

/-- The metadata of C8's positive case: two server rules. -/
def mRules : Meta :=
  { serverRules := .jarr [.jstr "Be nice", .jstr "No spam"] }

/-- Metadata whose `serverRules` is present but not an array. -/
def mRulesNotArray : Meta := { serverRules := .jstr "Be nice" }

lemma string_ext {a b : String} (h : a.data = b.data) : a = b := by
  cases a; cases b; exact congrArg String.mk h

lemma isPreB_append_self (n rest : List Char) : isPreB n (n ++ rest) = true := by
  induction n with
  | nil => rfl
  | cons c t ih => simp [isPreB, ih]

lemma isSubB_nil_left (h : List Char) : isSubB [] h = true := by
  cases h <;> simp [isSubB, isPreB, List.isEmpty]

lemma isSubB_of_decomp (n pre post : List Char) :
    isSubB n (pre ++ n ++ post) = true := by
  induction pre with
  | nil =>
    cases n with
    | nil => simpa using isSubB_nil_left post
    | cons c t =>
      simp only [List.nil_append, List.cons_append, isSubB, Bool.or_eq_true]
      exact Or.inl (by simpa [List.cons_append] using
        isPreB_append_self (c :: t) post)
  | cons c t ih =>
    simp only [List.cons_append, isSubB, Bool.or_eq_true]
    exact Or.inr ih

lemma strHas_of_StrIn {n h : String} (hin : StrIn n h) : strHas n h = true := by
  obtain ⟨pre, post, rfl⟩ := hin
  simpa [strHas, String.data_append] using
    isSubB_of_decomp n.data pre.data post.data

lemma not_StrIn_of_strHas_false {n h : String} (hb : strHas n h = false) :
    ¬ StrIn n h := fun hin => by simp [strHas_of_StrIn hin] at hb

lemma StrIn_of_decomp {n h pre post : String} (hd : h = pre ++ n ++ post) :
    StrIn n h := ⟨pre, post, hd⟩

/-! ### Behaviour of `getMeta`'s GET attempt -/

lemma tryGet_requests (w : World) (sigs : List Nat)
    (reqs : List (Method × Nat)) (logs : List String) :
    (tryGet w sigs reqs logs).2.requests = reqs ++ [(Method.GET, 0)] := by
  rcases hg : w.get with ⟨nm, msg⟩ | ⟨s, b⟩ <;> simp [tryGet, hg]
  split <;> rfl

lemma tryGet_signals (w : World) (sigs : List Nat)
    (reqs : List (Method × Nat)) (logs : List String) :
    (tryGet w sigs reqs logs).2.signals = sigs := by
  rcases hg : w.get with ⟨nm, msg⟩ | ⟨s, b⟩ <;> simp [tryGet, hg]
  split <;> rfl

lemma tryGet_logs (w : World) (sigs : List Nat)
    (reqs : List (Method × Nat)) (logs : List String) :
    (tryGet w sigs reqs logs).2.logs = logs := by
  rcases hg : w.get with ⟨nm, msg⟩ | ⟨s, b⟩ <;> simp [tryGet, hg]
  split <;> rfl

lemma getMeta_requests_of_postFailed (host : String) (w : World)
    (hfail : postFailed w.post = true) :
    (getMeta host w).2.requests = [(Method.POST, 0), (Method.GET, 0)] := by
  rcases hw : w.post with ⟨nm, msg⟩ | ⟨s, b⟩
  · simpa [getMeta, hw] using tryGet_requests w [5000] [(Method.POST, 0)] _
  · have hok : respOk s = false := by simpa [postFailed, hw] using hfail
    simp only [getMeta, hw, hok, Bool.false_eq_true, if_false]
    split <;>
      simpa using tryGet_requests w [5000] [(Method.POST, 0)] _

/-- C1: For every host for which the POST request to
`https://<host>/api/meta` returns a 2xx status, `getMeta` returns the
parsed JSON body of that POST response, and the GET request is never
issued. -/
theorem getMeta_post_success_returns_post_body_and_no_get
    (host : String) (w : World) (status : Nat) (m : Meta)
    (hpost : w.post = .resp status (.ok m)) (hok : respOk status = true) :
    (getMeta host w).1 = .ok m ∧
    (getMeta host w).2.requests = [(Method.POST, 0)] ∧
    Method.GET ∉ (getMeta host w).2.requests.map Prod.fst := by
  refine ⟨?_, ?_, ?_⟩ <;> simp [getMeta, hpost, hok]

/-- Witness for C1: a world whose POST answers 200 with an empty
metadata object. -/
theorem getMeta_post_success_witness :
    (getMeta "example.com" wPostOk).1 = .ok {} ∧
    (getMeta "example.com" wPostOk).2.requests = [(Method.POST, 0)] ∧
    Method.GET ∉ (getMeta "example.com" wPostOk).2.requests.map Prod.fst :=
  getMeta_post_success_returns_post_body_and_no_get
    "example.com" wPostOk 200 {} rfl (by decide)

/-- C2: For every host for which the POST request does not return a 2xx
status (404, 405, or any other non-success status) or the POST throws a
transport/timeout error, `getMeta` issues the GET request to the same
path exactly once, after the POST. -/
theorem getMeta_post_failure_gets_once (host : String) (w : World)
    (hfail : postFailed w.post = true) :
    (getMeta host w).2.requests = [(Method.POST, 0), (Method.GET, 0)] ∧
    ((getMeta host w).2.requests.map Prod.fst).count Method.GET = 1 := by
  have h1 := getMeta_requests_of_postFailed host w hfail
  exact ⟨h1, by rw [h1]; decide⟩

/-- Witness for C2: a world whose POST rejects with a transport error. -/
theorem getMeta_post_failure_gets_once_witness :
    (getMeta "example.com" wPostThrown).2.requests =
      [(Method.POST, 0), (Method.GET, 0)] ∧
    ((getMeta "example.com" wPostThrown).2.requests.map Prod.fst).count
      Method.GET = 1 :=
  getMeta_post_failure_gets_once "example.com" wPostThrown (by decide)

lemma tryGet_fst_of_failed (w : World) (sigs : List Nat)
    (reqs : List (Method × Nat)) (logs : List String) (msg : String)
    (hg : getFailMsg w.get = some msg) :
    (tryGet w sigs reqs logs).1 = .error msg := by
  rcases hge : w.get with ⟨nm, m⟩ | ⟨s, b⟩
  · simp [getFailMsg, hge] at hg
    simp [tryGet, hge, hg]
  · by_cases hok : respOk s = true
    · simp [getFailMsg, hge, hok] at hg
    · have hok' : respOk s = false := by simpa using hok
      simp [getFailMsg, hge, hok'] at hg
      simp [tryGet, hge, hok', hg]

lemma getMeta_fst_of_both_failed (host : String) (w : World) (msg : String)
    (hfail : postFailed w.post = true) (hg : getFailMsg w.get = some msg) :
    (getMeta host w).1 = .error msg := by
  rcases hw : w.post with ⟨nm, m⟩ | ⟨s, b⟩
  · simpa [getMeta, hw] using
      tryGet_fst_of_failed w [5000] [(Method.POST, 0)] _ msg hg
  · have hok : respOk s = false := by simpa [postFailed, hw] using hfail
    simp only [getMeta, hw, hok, Bool.false_eq_true, if_false]
    split <;>
      simpa using tryGet_fst_of_failed w [5000] [(Method.POST, 0)] _ msg hg

lemma renderOffline_decomp_offline (host msg : String) :
    renderOffline host msg =
      ("\n      <p><strong>Host:</strong> " ++ escapeHTML host ++
        "</p>\n      <p><strong>Status:</strong> <span style=\"color:#f88;\">") ++
      "Offline" ++
      ("</span></p>\n      <p><strong>Error:</strong> " ++ escapeHTML msg ++
        "</p>\n    ") := by
  have hsplit :
      ("</p>\n      <p><strong>Status:</strong> <span style=\"color:#f88;\">Offline</span></p>\n      <p><strong>Error:</strong> " : String) =
        "</p>\n      <p><strong>Status:</strong> <span style=\"color:#f88;\">" ++
        "Offline" ++ "</span></p>\n      <p><strong>Error:</strong> " := by decide
  rw [renderOffline, hsplit]
  simp only [String.append_assoc]

lemma renderOffline_decomp_error_line (host msg : String) :
    renderOffline host msg =
      ("\n      <p><strong>Host:</strong> " ++ escapeHTML host ++
        "</p>\n      <p><strong>Status:</strong> <span style=\"color:#f88;\">Offline</span></p>\n      ") ++
      ("<p><strong>Error:</strong> " ++ escapeHTML msg ++ "</p>") ++
      "\n    " := by
  have hsplit :
      ("</p>\n      <p><strong>Status:</strong> <span style=\"color:#f88;\">Offline</span></p>\n      <p><strong>Error:</strong> " : String) =
        "</p>\n      <p><strong>Status:</strong> <span style=\"color:#f88;\">Offline</span></p>\n      " ++
        "<p><strong>Error:</strong> " := by decide
  have hsplit2 : ("</p>\n    " : String) = "</p>" ++ "\n    " := by decide
  rw [renderOffline, hsplit, hsplit2]
  simp only [String.append_assoc]

/-- C3: When both the POST attempt and the GET attempt fail, `getMeta`
throws, and `doSearch` renders a block whose status is "Offline" and
whose error line shows the GET failure's message; the rendered output is
exactly the offline template over the GET message, so the POST failure's
message never appears. -/
theorem doSearch_both_fail_renders_offline_with_get_message
    (input : String) (w : World) (out : String) (msg : String)
    (hhost : jsTrim input ≠ "") (hfail : postFailed w.post = true)
    (hget : getFailMsg w.get = some msg) :
    (getMeta (jsTrim input) w).1 = .error msg ∧
    (doSearch input w out).1 = renderOffline (jsTrim input) msg ∧
    StrIn "Offline" (doSearch input w out).1 ∧
    StrIn ("<p><strong>Error:</strong> " ++ escapeHTML msg ++ "</p>")
      (doSearch input w out).1 := by
  have hres := getMeta_fst_of_both_failed (jsTrim input) w msg hfail hget
  have hout : (doSearch input w out).1 = renderOffline (jsTrim input) msg := by
    rcases hgm : getMeta (jsTrim input) w with ⟨res, tr⟩
    rw [hgm] at hres
    simp only at hres
    subst hres
    simp [doSearch, hgm, hhost]
  refine ⟨hres, hout, ?_, ?_⟩
  · rw [hout]
    exact StrIn_of_decomp (renderOffline_decomp_offline (jsTrim input) msg)
  · rw [hout]
    exact StrIn_of_decomp (renderOffline_decomp_error_line (jsTrim input) msg)

/-- Witness for C3: POST answers 503, GET rejects with a transport
error; the output shows "Offline" and the GET message. -/
theorem doSearch_both_fail_witness :
    (getMeta (jsTrim "example.com") wBothFail).1 = .error "Failed to fetch" ∧
    (doSearch "example.com" wBothFail "").1 =
      renderOffline (jsTrim "example.com") "Failed to fetch" ∧
    StrIn "Offline" (doSearch "example.com" wBothFail "").1 ∧
    StrIn ("<p><strong>Error:</strong> " ++ escapeHTML "Failed to fetch" ++ "</p>")
      (doSearch "example.com" wBothFail "").1 :=
  doSearch_both_fail_renders_offline_with_get_message
    "example.com" wBothFail "" "Failed to fetch" (by decide) (by decide) (by decide)

lemma tryGet_fst_logs_irrel (w : World) (sigs sigs' : List Nat)
    (reqs reqs' : List (Method × Nat)) (logs logs' : List String) :
    (tryGet w sigs reqs logs).1 = (tryGet w sigs' reqs' logs').1 := by
  rcases hg : w.get with ⟨nm, msg⟩ | ⟨s, b⟩ <;> simp [tryGet, hg]
  split <;> rfl

lemma getMeta_signals (host : String) (w : World) :
    (getMeta host w).2.signals = [5000] := by
  rcases hw : w.post with ⟨nm, m⟩ | ⟨s, b⟩
  · simpa [getMeta, hw] using tryGet_signals w [5000] [(Method.POST, 0)] _
  · by_cases hok : respOk s = true
    · simp [getMeta, hw, hok]
    · have hok' : respOk s = false := by simpa using hok
      simp only [getMeta, hw, hok', Bool.false_eq_true, if_false]
      split <;> simpa using tryGet_signals w [5000] [(Method.POST, 0)] _

lemma getMeta_requests_cases (host : String) (w : World) :
    (getMeta host w).2.requests = [(Method.POST, 0)] ∨
    (getMeta host w).2.requests = [(Method.POST, 0), (Method.GET, 0)] := by
  rcases hw : w.post with ⟨nm, m⟩ | ⟨s, b⟩
  · right
    simpa [getMeta, hw] using tryGet_requests w [5000] [(Method.POST, 0)] _
  · by_cases hok : respOk s = true
    · left; simp [getMeta, hw, hok]
    · right
      have hok' : respOk s = false := by simpa using hok
      simp only [getMeta, hw, hok', Bool.false_eq_true, if_false]
      split <;> simpa using tryGet_requests w [5000] [(Method.POST, 0)] _

lemma getMeta_logs_of_postFailed (host : String) (w : World)
    (hfail : postFailed w.post = true) :
    (getMeta host w).2.logs = postLogsOf host w.post := by
  rcases hw : w.post with ⟨nm, m⟩ | ⟨s, b⟩
  · simpa [getMeta, hw, postLogsOf] using
      tryGet_logs w [5000] [(Method.POST, 0)] _
  · have hok : respOk s = false := by simpa [postFailed, hw] using hfail
    simp only [getMeta, hw, hok, Bool.false_eq_true, if_false, postLogsOf]
    split <;> simp_all <;>
      simpa using tryGet_logs w [5000] [(Method.POST, 0)] _

/-- Counterexample for C4: a 2xx POST whose body is not JSON.
`respPost.json()` is returned from inside the `try` without `await`, so
the parse rejection is not caught: `getMeta` terminates with the parse
error, nothing is logged, and the GET fallback is never attempted. -/
theorem getMeta_malformed_post_body_not_swallowed :
    (getMeta "example.com" wBadJson).1 = .error "Unexpected token < in JSON" ∧
    (getMeta "example.com" wBadJson).2.requests = [(Method.POST, 0)] ∧
    (getMeta "example.com" wBadJson).2.logs = [] :=
  ⟨rfl, by decide, by decide⟩

/-- C4 (amended): POST-level transport failures, timeouts and non-2xx
statuses are swallowed — the operation continues with exactly one GET
attempt whose outcome becomes `getMeta`'s result — and are logged except
for the statuses 404/405, which fall through silently.  (A malformed
body on a 2xx POST is *not* swallowed, see the counterexample.) -/
theorem getMeta_post_failure_swallowed_and_logged (host : String)
    (w : World) (hfail : postFailed w.post = true) :
    ((getMeta host w).2.requests.map Prod.fst).count Method.GET = 1 ∧
    (getMeta host w).1 = (tryGet w [5000] [(Method.POST, 0)] []).1 ∧
    (getMeta host w).2.logs = postLogsOf host w.post := by
  refine ⟨?_, ?_, getMeta_logs_of_postFailed host w hfail⟩
  · rw [getMeta_requests_of_postFailed host w hfail]; decide
  · rcases hw : w.post with ⟨nm, m⟩ | ⟨s, b⟩
    · simpa [getMeta, hw] using
        tryGet_fst_logs_irrel w [5000] [5000] [(Method.POST, 0)]
          [(Method.POST, 0)] _ []
    · have hok : respOk s = false := by simpa [postFailed, hw] using hfail
      simp only [getMeta, hw, hok, Bool.false_eq_true, if_false]
      split <;>
        exact tryGet_fst_logs_irrel w [5000] [5000] [(Method.POST, 0)]
          [(Method.POST, 0)] _ []

/-- Witness for the amended C4: a POST transport failure is swallowed,
logged, and answered by the single GET attempt. -/
theorem getMeta_post_failure_swallowed_witness :
    ((getMeta "example.com" wPostThrown).2.requests.map Prod.fst).count
      Method.GET = 1 ∧
    (getMeta "example.com" wPostThrown).1 =
      (tryGet wPostThrown [5000] [(Method.POST, 0)] []).1 ∧
    (getMeta "example.com" wPostThrown).2.logs =
      postLogsOf "example.com" wPostThrown.post :=
  getMeta_post_failure_swallowed_and_logged "example.com" wPostThrown
    (by decide)

/-- C5: with metadata `softwareName = "Foo"`, `version = "1.0"`, the
`health.softwareName` value is computed by the softwareName-or-name
alias, but "Foo" appears nowhere in the rendered markup, while the
Version field shows "1.0". -/
theorem renderOnline_drops_software_name :
    (healthOf "example.com" mFooVersion).softwareName = .jstr "Foo" ∧
    strHas "Foo" (renderOnline "example.com" mFooVersion) = false ∧
    strHas "<p><strong>Version:</strong> 1.0</p>"
      (renderOnline "example.com" mFooVersion) = true :=
  ⟨rfl, by decide, by decide⟩

/-- C6: `getMeta` creates one abort signal, with a 5000 ms timeout,
before the POST; every request it issues (the POST, and the GET when one
happens) carries that same signal, and a POST timeout (`AbortError`)
triggers the GET fallback exactly like any other POST rejection. -/
theorem getMeta_single_shared_signal (host : String) (w : World)
    (habort : postFailed w.post = true) :
    (getMeta host w).2.signals = [5000] ∧
    ((getMeta host w).2.requests.all fun r => r.2 == 0) = true ∧
    (getMeta host w).2.requests = [(Method.POST, 0), (Method.GET, 0)] := by
  have hreq := getMeta_requests_of_postFailed host w habort
  refine ⟨getMeta_signals host w, ?_, hreq⟩
  rw [hreq]
  decide

/-- Witness for C6: a POST that times out (AbortError) falls back to the
GET, both requests running with the single 5000 ms signal. -/
theorem getMeta_single_shared_signal_witness :
    (getMeta "example.com" wPostAbort).2.signals = [5000] ∧
    ((getMeta "example.com" wPostAbort).2.requests.all fun r => r.2 == 0) = true ∧
    (getMeta "example.com" wPostAbort).2.requests =
      [(Method.POST, 0), (Method.GET, 0)] :=
  getMeta_single_shared_signal "example.com" wPostAbort (by decide)

/-! ### Escaping -/

lemma escList_append (l1 l2 : List Char) :
    escList (l1 ++ l2) = escList l1 ++ escList l2 := by
  induction l1 with
  | nil => rfl
  | cons c t ih => simp [escList, ih, List.append_assoc]

lemma escapeHTML_append (a b : String) :
    escapeHTML (a ++ b) = escapeHTML a ++ escapeHTML b := by
  apply string_ext
  simp only [escapeHTML, String.data_append, escList_append]

lemma mem_escChar_safe {c d : Char} (h : c ∈ escChar d) :
    c ≠ '<' ∧ c ≠ '>' ∧ c ≠ '"' ∧ c ≠ '\'' := by
  by_cases h1 : d = '&'
  · subst h1; simp only [escChar, if_pos rfl] at h
    fin_cases h <;> decide
  by_cases h2 : d = '<'
  · subst h2; simp only [escChar, reduceIte] at h
    fin_cases h <;> decide
  by_cases h3 : d = '>'
  · subst h3; simp only [escChar, reduceIte] at h
    fin_cases h <;> decide
  by_cases h4 : d = '"'
  · subst h4; simp only [escChar, reduceIte] at h
    fin_cases h <;> decide
  by_cases h5 : d = '\''
  · subst h5; simp only [escChar, reduceIte] at h
    fin_cases h <;> decide
  · simp only [escChar, h1, h2, h3, h4, h5, if_false, List.mem_singleton] at h
    subst h
    exact ⟨h2, h3, h4, h5⟩

lemma mem_escList_safe {c : Char} {l : List Char} (h : c ∈ escList l) :
    c ≠ '<' ∧ c ≠ '>' ∧ c ≠ '"' ∧ c ≠ '\'' := by
  induction l with
  | nil => simp [escList] at h
  | cons d t ih =>
    simp only [escList, List.mem_append] at h
    rcases h with h | h
    · exact mem_escChar_safe h
    · exact ih h

/-- C7: `escapeHTML` replaces every occurrence of the five special
characters by its HTML entity: a value containing `<script>` appears in
the output as the text `&lt;script&gt;`, and no output of `escapeHTML`
contains a raw `<`, `>`, `"` or `'`, so an escaped value can never be
live markup. -/
theorem escapeHTML_neutralizes_markup (a b s : String) :
    escapeHTML (a ++ "<script>" ++ b) =
      escapeHTML a ++ "&lt;script&gt;" ++ escapeHTML b ∧
    ((escapeHTML s).data.all fun c =>
      c != '<' && c != '>' && c != '"' && c != '\'') = true := by
  constructor
  · rw [escapeHTML_append, escapeHTML_append,
      show escapeHTML "<script>" = "&lt;script&gt;" by decide]
  · rw [List.all_eq_true]
    intro c hc
    have hs := mem_escList_safe (show c ∈ escList s.data from hc)
    simp [bne_iff_ne, hs.1, hs.2.1, hs.2.2.1, hs.2.2.2]

/-! ### The rules list -/

lemma foldl_li (rules : List JVal) (init : String) :
    rules.foldl (fun acc rule => acc ++ ("<li>" ++ escJ rule ++ "</li>")) init
      = init ++ liConcat rules := by
  induction rules generalizing init with
  | nil => simp [liConcat, String.append_empty]
  | cons r t ih =>
    rw [List.foldl_cons, ih, liConcat]
    simp only [String.append_assoc]

lemma metaRulesHtml_eq_spec (m : Meta) : metaRulesHtml m = rulesSpecOf m := by
  unfold metaRulesHtml rulesSpecOf
  rcases hr : m.serverRules with _ | _ | b | n | s | rules
  · rfl
  · rfl
  · simp [truthy]
  · simp [truthy]
  · simp [truthy]
  · cases rules with
    | nil => simp [truthy]
    | cons r t =>
      dsimp only
      rw [if_pos (by simp : (r :: t).length > 0), foldl_li,
        if_pos (show truthy (.jarr (r :: t)) = true from rfl)]

lemma renderOnline_contains_rules (host : String) (m : Meta) :
    StrIn (metaRulesHtml m) (renderOnline host m) := by
  unfold renderOnline
  exact ⟨_, _, rfl⟩

/-- C8: the rendered output carries a rules list with exactly one escaped
entry per `serverRules` element, in the array's original order, exactly
when `serverRules` is a non-empty array; when it is absent, not an array,
or empty, the rules block is empty.  Concretely, for
`serverRules = ["Be nice", "No spam"]` the two entries appear in order,
and a non-array `serverRules` renders no list. -/
theorem doSearch_rules_list (host : String) (m : Meta) :
    metaRulesHtml m = rulesSpecOf m ∧
    StrIn (metaRulesHtml m) (renderOnline host m) ∧
    strHas "<p><strong>Server Rules:</strong></p><ul class=\"rules\"><li>Be nice</li><li>No spam</li></ul>"
      (renderOnline "example.com" mRules) = true ∧
    metaRulesHtml mRulesNotArray = "" :=
  ⟨metaRulesHtml_eq_spec m, renderOnline_contains_rules host m,
    by decide, by decide⟩

/-! ### Empty input, and falsy fields -/

/-- C9: an input that is empty or whitespace-only after trimming makes
`doSearch` return before any network request: the output region keeps its
previous content and the trace is empty. -/
theorem doSearch_blank_input_is_noop (input : String) (w : World)
    (out : String) (h : jsTrim input = "") :
    doSearch input w out = (out, ⟨[], [], []⟩) := by
  simp [doSearch, h]

/-- Witness for C9: a whitespace-only input leaves the output unchanged
and issues no request. -/
theorem doSearch_blank_input_witness :
    doSearch "   " wPostOk "previous output" =
      ("previous output", ⟨[], [], []⟩) :=
  doSearch_blank_input_is_noop "   " wPostOk "previous output" (by decide)

/-- C10: the extraction and defaulting of `doSearch` treat falsy field
values like absent ones: an empty-string `softwareName`, `description`,
`maintainerName` or `inquiryUrl` renders exactly as if the field were
missing (falling back to its alias or to "N/A"), and a
`maxNoteTextLength` of 0 is omitted from the server-details block. -/
theorem falsy_fields_render_as_absent (host : String) (m : Meta) :
    healthOf host { m with softwareName := .jstr "" } =
      healthOf host { m with softwareName := .jundefined } ∧
    healthOf host { m with description := .jstr "" } =
      healthOf host { m with description := .jundefined } ∧
    healthOf host { m with maintainerName := .jstr "" } =
      healthOf host { m with maintainerName := .jundefined } ∧
    healthOf host { m with inquiryUrl := .jstr "" } =
      healthOf host { m with inquiryUrl := .jundefined } ∧
    renderOnline host { m with softwareName := .jstr "" } =
      renderOnline host { m with softwareName := .jundefined } ∧
    renderOnline host { m with description := .jstr "" } =
      renderOnline host { m with description := .jundefined } ∧
    renderOnline host { m with maintainerName := .jstr "" } =
      renderOnline host { m with maintainerName := .jundefined } ∧
    renderOnline host { m with inquiryUrl := .jstr "" } =
      renderOnline host { m with inquiryUrl := .jundefined } ∧
    renderOnline host { m with maxNoteTextLength := .jnum 0 } =
      renderOnline host { m with maxNoteTextLength := .jundefined } ∧
    metaMaxLength { m with maxNoteTextLength := .jnum 0 } = "" :=
  ⟨rfl, rfl, rfl, rfl, rfl, rfl, rfl, rfl, rfl, rfl⟩

end MskyInfo
